import Mathlib

/-!
Shallow embedding of the RAG content pipeline of the avatar-app repository
(server/services: textProcessor.js, embeddingService.js, vectorRepository.js,
responseGenerator.js, plus the `match_content_chunks` SQL function created by
supabaseClient.setupSchema), together with theorems settling the spec claims.

JavaScript strings are modelled as `List Char` (all inputs of interest are
ASCII, and the `\s` character class is modelled by the whitespace characters
JS recognises in the ASCII/Latin-1 range).  JavaScript numbers are modelled
as `Int`/`Nat` where the code only does integer arithmetic, as `ℚ` where the
code compares similarity scores, and as `ℝ` for `cosineSimilarity`, which
divides by square roots.
-/

set_option maxRecDepth 4000

namespace AvatarApp

/-- The whitespace characters matched by the JavaScript regex class `\s`
(restricted to the ASCII / Latin-1 characters, which cover every input the
pipeline handles): space, tab, newline, carriage return, vertical tab,
form feed and no-break space. -/
def jsWhitespace (c : Char) : Bool :=
  c == ' ' || c == '\t' || c == '\n' || c == '\r' ||
  c == Char.ofNat 11 || c == Char.ofNat 12 || c == Char.ofNat 160

/-- JavaScript `String.prototype.trim`: drop whitespace from both ends. -/
def jsTrim (s : List Char) : List Char :=
  ((s.dropWhile jsWhitespace).reverse.dropWhile jsWhitespace).reverse

/-- Scanner for `replaceRuns`: `inRun` records whether the previous
character belonged to a run of characters satisfying `p`, in which case the
replacement for the current run has already been emitted. -/
def replaceRunsAux (p : Char → Bool) (rep : List Char) :
    Bool → List Char → List Char
  | _, [] => []
  | inRun, c :: cs =>
    if p c then (if inRun then [] else rep) ++ replaceRunsAux p rep true cs
    else c :: replaceRunsAux p rep false cs

/-- Global regex replacement of each maximal non-empty run of characters
satisfying `p` by `rep`; this is `.replace(/p+/g, rep)` of JavaScript. -/
def replaceRuns (p : Char → Bool) (rep : List Char) (l : List Char) :
    List Char :=
  replaceRunsAux p rep false l

/-- `textProcessor.cleanText`: `.replace(/\s+/g, ' ')`, then
`.replace(/\n+/g, '\n')`, then `.replace(/\t+/g, ' ')`, then
`.replace(/\r/g, '')`, then `.trim()`; the empty string is returned as-is
(`if (!text) return ''`). -/
def cleanText (text : List Char) : List Char :=
  if text = [] then []
  else
    jsTrim (List.filter (fun c => c ≠ '\r')
      (replaceRuns (· == '\t') [' ']
        (replaceRuns (· == '\n') ['\n']
          (replaceRuns jsWhitespace [' '] text))))

/-- `textProcessor.estimateTokenCount`: `Math.ceil(text.length / 4)` with
`0` for the empty (falsy) string.  For a natural-number length the real
ceiling `⌈len / 4⌉` equals the integer expression `(len + 3) / 4`, which is
the executable form used here; `estimateTokenCount_eq_ceil` below proves
that this is exactly `⌈len / 4⌉`. -/
def estimateTokenCount (text : List Char) : Nat :=
  if text = [] then 0 else (text.length + 3) / 4

example : cleanText ("  a   b  ".toList) = "a b".toList := by decide
example : cleanText ("a\nb".toList) = "a b".toList := by decide
example : estimateTokenCount ("abcde".toList) = 2 := by decide

/-- The JavaScript regex class `\d`, i.e. the digits 0-9. -/
def isDigit (c : Char) : Bool := 48 ≤ c.toNat && c.toNat ≤ 57

/-- The regex class `[A-Z]`. -/
def isUpperAZ (c : Char) : Bool := 65 ≤ c.toNat && c.toNat ≤ 90

/-- The regex class `[a-z]`. -/
def isLowerAZ (c : Char) : Bool := 97 ≤ c.toNat && c.toNat ≤ 122

/-- Matcher for the regex `\[\d+:\d+:\d+\]` at the head of `l`: returns the
length of the match, if any.  The character classes of the pattern are
pairwise disjoint, so greedy matching without backtracking is exact. -/
def matchBracketTimestamp (l : List Char) : Option Nat :=
  match l with
  | '[' :: r0 =>
    let d1 := (r0.takeWhile isDigit).length
    if d1 = 0 then none else
    match r0.drop d1 with
    | ':' :: r1 =>
      let d2 := (r1.takeWhile isDigit).length
      if d2 = 0 then none else
      match r1.drop d2 with
      | ':' :: r2 =>
        let d3 := (r2.takeWhile isDigit).length
        if d3 = 0 then none else
        match r2.drop d3 with
        | ']' :: _ => some (d1 + d2 + d3 + 4)
        | _ => none
      | _ => none
    | _ => none
  | _ => none

/-- Matcher for the regex `\(\d+:\d+\)` at the head of `l`. -/
def matchParenTimestamp (l : List Char) : Option Nat :=
  match l with
  | '(' :: r0 =>
    let d1 := (r0.takeWhile isDigit).length
    if d1 = 0 then none else
    match r0.drop d1 with
    | ':' :: r1 =>
      let d2 := (r1.takeWhile isDigit).length
      if d2 = 0 then none else
      match r1.drop d2 with
      | ')' :: _ => some (d1 + d2 + 3)
      | _ => none
    | _ => none
  | _ => none

/-- Matcher for the line-anchored regex `Speaker \d+:?\s*` at the head of
`l` (the `^`/`m` anchoring is handled by the scanner). -/
def matchSpeakerLabel (l : List Char) : Option Nat :=
  if ("Speaker ".toList).isPrefixOf l then
    let r0 := l.drop 8
    let d := (r0.takeWhile isDigit).length
    if d = 0 then none else
    let r1 := r0.drop d
    match r1 with
    | ':' :: r2 => some (8 + d + 1 + (r2.takeWhile jsWhitespace).length)
    | _ => some (8 + d + (r1.takeWhile jsWhitespace).length)
  else none

/-- Matcher for the line-anchored regex `[A-Z][a-z]+:?\s*` at the head of
`l` (the "potential speaker name" pattern of `cleanTranscript`). -/
def matchSpeakerName (l : List Char) : Option Nat :=
  match l with
  | c :: rest =>
    if isUpperAZ c then
      let lo := (rest.takeWhile isLowerAZ).length
      if lo = 0 then none else
      let r1 := rest.drop lo
      match r1 with
      | ':' :: r2 => some (1 + lo + 1 + (r2.takeWhile jsWhitespace).length)
      | _ => some (1 + lo + (r1.takeWhile jsWhitespace).length)
    else none
  | [] => none

/-- Scanner for a global (`g`) regex replacement by the empty string: at
every position try the matcher `m`; on a match of length `n + 1` skip the
matched characters, otherwise keep the character and move on.  The `fuel`
argument (initialised to the length of the scanned list, which every step
strictly decreases) only makes the recursion structural. -/
def removeAllAux (m : List Char → Option Nat) : Nat → List Char → List Char
  | _, [] => []
  | 0, l => l
  | fuel + 1, c :: cs =>
    match m (c :: cs) with
    | some (n + 1) => removeAllAux m fuel (cs.drop n)
    | _ => c :: removeAllAux m fuel cs

/-- `.replace(/pat/g, '')` for an unanchored pattern recognised by `m`. -/
def removeAll (m : List Char → Option Nat) (l : List Char) : List Char :=
  removeAllAux m l.length l

/-- Scanner for a global multiline (`gm`) replacement of a `^`-anchored
pattern by the empty string: the matcher is only tried at line starts
(position 0, or any position whose preceding character in the scanned
string is a newline), exactly as the JavaScript `^` anchor with the `m`
flag behaves. -/
def removeAllAnchoredAux (m : List Char → Option Nat) :
    Nat → Bool → List Char → List Char
  | _, _, [] => []
  | 0, _, l => l
  | fuel + 1, atStart, c :: cs =>
    if atStart then
      match m (c :: cs) with
      | some (n + 1) =>
        removeAllAnchoredAux m fuel
          (((c :: cs).take (n + 1)).getLast? == some '\n') (cs.drop n)
      | _ => c :: removeAllAnchoredAux m fuel (c == '\n') cs
    else c :: removeAllAnchoredAux m fuel (c == '\n') cs

/-- `.replace(/^pat/gm, '')` for a pattern recognised by `m`. -/
def removeAllAnchored (m : List Char → Option Nat) (l : List Char) :
    List Char :=
  removeAllAnchoredAux m l.length true l

/-- `textProcessor.cleanTranscript`: remove `[h:m:s]` timestamps, `(m:s)`
timestamps, `^Speaker \d+:?\s*` labels, `^[A-Z][a-z]+:?\s*` potential
speaker names, then collapse `\s+` to a space and `\n+` to a newline and
trim; the empty string is returned as-is. -/
def cleanTranscript (t : List Char) : List Char :=
  if t = [] then []
  else
    jsTrim (replaceRuns (· == '\n') ['\n']
      (replaceRuns jsWhitespace [' ']
        (removeAllAnchored matchSpeakerName
          (removeAllAnchored matchSpeakerLabel
            (removeAll matchParenTimestamp
              (removeAll matchBracketTimestamp t))))))

example : cleanTranscript ("[00:01:23] Speaker 1: Hi there".toList)
    = "Speaker 1: Hi there".toList := by decide
example : cleanTranscript ("Speaker 1: Hi there".toList)
    = "there".toList := by decide
example : cleanTranscript ("Hello there.".toList) = "there.".toList := by
  decide

/-- One backward step of `String.prototype.lastIndexOf`: the largest
position `k ≤ bound` at which `pat` starts in `text`, or `-1`. -/
def lastIndexOfFrom (text pat : List Char) : Nat → Int
  | 0 => if pat.isPrefixOf text then 0 else -1
  | k + 1 =>
    if pat.isPrefixOf (text.drop (k + 1)) then (k : Int) + 1
    else lastIndexOfFrom text pat k

/-- JavaScript `text.lastIndexOf(pat, fromIndex)`: `fromIndex` is clamped
to `[0, text.length]` and the last occurrence starting at or before it is
returned, `-1` if there is none. -/
def jsLastIndexOf (text pat : List Char) (fromIndex : Int) : Int :=
  lastIndexOfFrom text pat (min fromIndex.toNat text.length)

/-- JavaScript `text.substring(a, b)`: both arguments are clamped to
`[0, text.length]` and swapped if out of order. -/
def jsSubstring (text : List Char) (a b : Int) : List Char :=
  let a1 := (min (max a 0) (text.length : Int)).toNat
  let b1 := (min (max b 0) (text.length : Int)).toNat
  (text.take (max a1 b1)).drop (min a1 b1)

/-- A chunk produced by `textProcessor.chunkText`. -/
structure Chunk where
  text : List Char
  startChar : Int
  endChar : Int
deriving DecidableEq, Repr

/-- The `endChar` computation of one `chunkText` loop iteration: propose
`startChar + chunkSize`; if that is strictly inside the text, snap back to
just after a paragraph break (`"\n\n"` within the last 200 characters) or
else a sentence break (`". "` within the last 100 characters), provided the
break lies strictly after `startChar`; otherwise use the full length. -/
def computeEnd (text : List Char) (startChar chunkSize : Int) : Int :=
  let endChar := startChar + chunkSize
  if endChar < (text.length : Int) then
    let paraBreak := jsLastIndexOf text ['\n', '\n'] endChar
    let sentenceBreak := jsLastIndexOf text ['.', ' '] endChar
    if paraBreak > startChar ∧ paraBreak > endChar - 200 then paraBreak + 1
    else if sentenceBreak > startChar ∧ sentenceBreak > endChar - 100 then
      sentenceBreak + 1
    else endChar
  else (text.length : Int)

/-- The `while (startChar < text.length)` loop of `chunkText`, with an
explicit iteration budget `fuel`: `none` means the loop has not exited
within `fuel` iterations (so `(∀ fuel, ... = none)` states that the
JavaScript loop never terminates), `some chunks` is the returned list.
Each iteration extracts `text.substring(startChar, endChar).trim()`,
appends it when non-empty, sets `startChar = endChar - overlap` and breaks
when that is `≥ text.length`. -/
def chunkLoop (text : List Char) (chunkSize overlap : Int) :
    Nat → Int → List Chunk → Option (List Chunk)
  | 0, _, _ => none
  | fuel + 1, startChar, chunks =>
    if startChar < (text.length : Int) then
      let endChar := computeEnd text startChar chunkSize
      let ct := jsTrim (jsSubstring text startChar endChar)
      let chunks2 :=
        if ct = [] then chunks else chunks ++ [⟨ct, startChar, endChar⟩]
      let nextStart := endChar - overlap
      if nextStart ≥ (text.length : Int) then some chunks2
      else chunkLoop text chunkSize overlap fuel nextStart chunks2
    else some chunks

/-- `textProcessor.chunkText(text, chunkSize = 1500, overlap = 150)`:
empty text gives no chunks, text no longer than `chunkSize` gives a single
chunk, otherwise the sliding-window loop runs (with iteration budget
`fuel`, see `chunkLoop`). -/
def chunkText (fuel : Nat) (text : List Char) (chunkSize overlap : Int) :
    Option (List Chunk) :=
  if text = [] then some []
  else if (text.length : Int) ≤ chunkSize then
    some [⟨text, 0, (text.length : Int)⟩]
  else chunkLoop text chunkSize overlap fuel 0 []

example : chunkText 3 ("short text".toList) 1500 150
    = some [⟨"short text".toList, 0, 10⟩] := by decide

/-- A found occurrence reported by `lastIndexOfFrom` is a genuine match
position: for a non-empty pattern the result is `-1` or a position `j`
with `j + pat.length ≤ text.length`. -/
theorem lastIndexOfFrom_bound (text pat : List Char) (hp : pat ≠ []) :
    ∀ k : Nat, lastIndexOfFrom text pat k = -1 ∨
      ∃ j : Nat, lastIndexOfFrom text pat k = (j : Int) ∧
        j + pat.length ≤ text.length := by
  have hppos : 0 < pat.length := List.length_pos.mpr hp
  intro k
  induction k with
  | zero =>
    by_cases h : pat.isPrefixOf text
    · right
      refine ⟨0, by simp [lastIndexOfFrom, h], ?_⟩
      simpa using (List.isPrefixOf_iff_prefix.mp h).length_le
    · left
      simp [lastIndexOfFrom, h]
  | succ k ih =>
    by_cases h : pat.isPrefixOf (text.drop (k + 1))
    · right
      refine ⟨k + 1, by simp [lastIndexOfFrom, h], ?_⟩
      have hle : pat.length ≤ text.length - (k + 1) := by
        simpa [List.length_drop] using
          (List.isPrefixOf_iff_prefix.mp h).length_le
      omega
    · have : lastIndexOfFrom text pat (k + 1) = lastIndexOfFrom text pat k := by
        simp [lastIndexOfFrom, h]
      rw [this]
      exact ih

/-- `jsLastIndexOf` plus one never reaches past the end of the text (for a
non-empty pattern): the snapped `endChar` of `computeEnd` stays in range. -/
theorem jsLastIndexOf_add_one_le (text pat : List Char) (fromIndex : Int)
    (hp : pat ≠ []) :
    jsLastIndexOf text pat fromIndex + 1 ≤ (text.length : Int) := by
  have hppos : 0 < pat.length := List.length_pos.mpr hp
  rcases lastIndexOfFrom_bound text pat hp
      (min fromIndex.toNat text.length) with h | ⟨j, hj, hlen⟩
  · rw [jsLastIndexOf, h]
    have : (0 : Int) ≤ (text.length : Int) := Int.ofNat_nonneg _
    omega
  · rw [jsLastIndexOf, hj]
    exact_mod_cast Nat.le_of_lt_succ (by omega : j + 1 < text.length + 1)

/-- The `endChar` chosen by one `chunkText` iteration never exceeds the
text length. -/
theorem computeEnd_le (text : List Char) (s cs : Int) :
    computeEnd text s cs ≤ (text.length : Int) := by
  have hpb := jsLastIndexOf_add_one_le text ['\n', '\n'] (s + cs) (by simp)
  have hsb := jsLastIndexOf_add_one_le text ['.', ' '] (s + cs) (by simp)
  simp only [computeEnd]
  split_ifs with h1 h2 h3
  · exact hpb
  · exact hsb
  · exact le_of_lt h1
  · exact le_rfl

/-- Once `chunkText`'s loop is entered with `startChar < text.length` and
`overlap > 0`, it never exits: `endChar ≤ text.length` forces the next
`startChar = endChar - overlap` to again be `< text.length`, so neither the
loop condition nor the safety break can stop it, whatever the budget. -/
theorem chunkLoop_eq_none (text : List Char) (cs ov : Int) (hov : 0 < ov) :
    ∀ (fuel : Nat) (s : Int) (chunks : List Chunk),
      s < (text.length : Int) →
      chunkLoop text cs ov fuel s chunks = none := by
  intro fuel
  induction fuel with
  | zero =>
    intro s chunks _
    rfl
  | succ n ih =>
    intro s chunks hs
    have hend := computeEnd_le text s cs
    have hnext : computeEnd text s cs - ov < (text.length : Int) := by omega
    simp only [chunkLoop]
    rw [if_pos hs, if_neg (not_le.mpr hnext)]
    exact ih _ _ hnext

/-- A 100-character sentence of narrative prose ending in `". "`. -/
def proseSentence : List Char :=
  ("The rivers wound gently and slowly through a quiet old valley as " ++
   "pale morning light touched stones. ").toList

/-- A 5000-character string of narrative prose (50 copies of
`proseSentence`), the scenario input of the spec. -/
def prose5000 : List Char := (List.replicate 50 proseSentence).flatten

theorem proseSentence_length : proseSentence.length = 100 := by decide

theorem prose5000_length : prose5000.length = 5000 := by
  rw [prose5000, List.length_flatten, List.map_replicate,
    proseSentence_length, List.sum_replicate]
  norm_num

/-- C1: the claim states that `chunkText` terminates for every non-empty
text and all `0 < overlap < chunkSize`, the implementation forcing an
advance when the next start position does not increase.  The code has no
such guard and the opposite holds: for every text strictly longer than
`chunkSize` the loop never exits (its state repeats at
`startChar = text.length - overlap`), so no iteration budget returns a
result.  The spec (and the code's own `Safety check to prevent infinite
loop` comment) make termination the clear intent, so this is a bug in the
code. -/
theorem chunkText_never_terminates_on_long_text (text : List Char)
    (chunkSize overlap : Int) (fuel : Nat) (hov : 0 < overlap)
    (hoc : overlap < chunkSize) (hlong : chunkSize < (text.length : Int)) :
    chunkText fuel text chunkSize overlap = none := by
  have hne : text ≠ [] := by
    intro h
    subst h
    simp only [List.length_nil, Nat.cast_zero] at hlong
    omega
  rw [chunkText, if_neg hne, if_neg (not_le.mpr hlong)]
  exact chunkLoop_eq_none text chunkSize overlap hov fuel 0 [] (by omega)

/-- Witness for C1: with the default parameters and a 1501-character text,
no iteration budget makes `chunkText` return. -/
theorem chunkText_never_terminates_on_long_text_witness :
    chunkText 5 (List.replicate 1501 'a') 1500 150 = none :=
  chunkText_never_terminates_on_long_text (List.replicate 1501 'a')
    1500 150 5 (by norm_num) (by norm_num)
    (by simp only [List.length_replicate]; norm_num)

/-- C2: the claim states that chunking a 5000-character string of
narrative prose with `chunkSize = 1500, overlap = 150` yields exactly 4
chunks with the last `endChar = 5000`.  On the code the scenario instead
never returns: the chunking loop diverges on this (and any) text longer
than `chunkSize`, so no iteration budget produces a chunk list at all. -/
theorem chunkText_diverges_on_prose5000 (fuel : Nat) :
    chunkText fuel prose5000 1500 150 = none := by
  have hlen : prose5000.length = 5000 := prose5000_length
  have hne : prose5000 ≠ [] := by
    intro h
    rw [h] at hlen
    simp at hlen
  rw [chunkText, if_neg hne, if_neg]
  · exact chunkLoop_eq_none prose5000 1500 150 (by norm_num) fuel 0 []
      (by rw [hlen]; norm_num)
  · rw [hlen]
    norm_num

/-- Any character of a `replaceRuns` output either comes from the
replacement (in which case some input character matched `p`) or is an
input character that does not match `p`. -/
theorem mem_replaceRunsAux {x : Char} (p : Char → Bool) (rep : List Char) :
    ∀ (b : Bool) (l : List Char), x ∈ replaceRunsAux p rep b l →
      (x ∈ rep ∧ ∃ c ∈ l, p c = true) ∨ (x ∈ l ∧ p x = false) := by
  intro b l
  induction l generalizing b with
  | nil => simp [replaceRunsAux]
  | cons c cs ih =>
    intro hmem
    rw [replaceRunsAux] at hmem
    by_cases hc : p c
    · rw [if_pos hc, List.mem_append] at hmem
      rcases hmem with hx | hx
      · left
        refine ⟨?_, c, List.mem_cons_self c cs, hc⟩
        cases b with
        | false => simpa using hx
        | true => simp at hx
      · rcases ih true hx with ⟨hr, d, hd, hpd⟩ | ⟨hl, hpx⟩
        · exact Or.inl ⟨hr, d, List.mem_cons_of_mem c hd, hpd⟩
        · exact Or.inr ⟨List.mem_cons_of_mem c hl, hpx⟩
    · rw [if_neg hc, List.mem_cons] at hmem
      rcases hmem with rfl | hx
      · exact Or.inr ⟨List.mem_cons_self x cs, by simpa using hc⟩
      · rcases ih false hx with ⟨hr, d, hd, hpd⟩ | ⟨hl, hpx⟩
        · exact Or.inl ⟨hr, d, List.mem_cons_of_mem c hd, hpd⟩
        · exact Or.inr ⟨List.mem_cons_of_mem c hl, hpx⟩

/-- Trimming only removes characters. -/
theorem mem_of_mem_jsTrim {x : Char} {s : List Char} (h : x ∈ jsTrim s) :
    x ∈ s := by
  rw [jsTrim, List.mem_reverse] at h
  have h1 := (List.dropWhile_sublist jsWhitespace).mem h
  rw [List.mem_reverse] at h1
  exact (List.dropWhile_sublist jsWhitespace).mem h1

/-- C7: the claim states that `cleanText` collapses newline runs to single
newlines so that line structure survives.  It does not: the first
replacement `.replace(/\s+/g, ' ')` already turns every whitespace run —
newlines included — into a single space, making the later
`.replace(/\n+/g, '\n')` step dead code, so the output of `cleanText`
never contains a newline at all; on the input `"a\nb"` the output is
`"a b"`.  The dedicated newline rule in the code (and its comment
`Replace multiple newlines with single newline`) makes preserving line
structure the evident intent, so this is a bug in the code. -/
theorem cleanText_erases_all_newlines :
    cleanText ("a\nb".toList) = "a b".toList ∧
    ∀ text : List Char,
      (cleanText text).all (fun c => !(c == '\n')) = true := by
  refine ⟨by decide, ?_⟩
  intro text
  rw [List.all_eq_true]
  intro x hx
  suffices hne : ¬x = '\n' by simpa using hne
  intro rfl_x
  subst rfl_x
  rw [cleanText] at hx
  split_ifs at hx with h
  · simp at hx
  · have h1 := mem_of_mem_jsTrim hx
    have h2 := List.mem_of_mem_filter h1
    rcases mem_replaceRunsAux _ _ _ _ h2 with ⟨hr, -⟩ | ⟨h3, -⟩
    · simp at hr
    · rcases mem_replaceRunsAux _ _ _ _ h3 with ⟨-, c, hc, hpc⟩ | ⟨-, hp4⟩
      · have hcn : c = '\n' := by simpa using hpc
        subst hcn
        rcases mem_replaceRunsAux _ _ _ _ hc with ⟨hr, -⟩ | ⟨-, hpw⟩
        · simp at hr
        · simp [jsWhitespace] at hpw
      · simp at hp4

/-- The executable token estimate is exactly the ceiling `⌈length / 4⌉` of
the JavaScript source (`Math.ceil(text.length / 4)`). -/
theorem estimateTokenCount_eq_ceil (text : List Char) :
    (estimateTokenCount text : Int) = Int.ceil ((text.length : ℚ) / 4) := by
  have key : ∀ n : Nat, (((n + 3) / 4 : Nat) : Int) = Int.ceil ((n : ℚ) / 4) := by
    intro n
    rw [eq_comm, Int.ceil_eq_iff, Int.cast_natCast]
    constructor
    · rw [lt_div_iff₀ (by norm_num : (0:ℚ) < 4)]
      have hq : (((n + 3) / 4 : Nat) : ℚ) * 4 ≤ (n : ℚ) + 3 := by
        exact_mod_cast (by omega : (n + 3) / 4 * 4 ≤ n + 3)
      linarith
    · rw [div_le_iff₀ (by norm_num : (0:ℚ) < 4)]
      have hq : (n : ℚ) ≤ (((n + 3) / 4 : Nat) : ℚ) * 4 := by
        exact_mod_cast (by omega : n ≤ (n + 3) / 4 * 4)
      linarith
  rcases eq_or_ne text [] with h | h
  · simp [estimateTokenCount, h]
  · simp only [estimateTokenCount, h, if_false]
    exact key _

/-- C9: `estimateTokenCount` is exactly `⌈length / 4⌉`, gives `0` on the
empty string, and is non-decreasing in the input length. -/
theorem estimateTokenCount_spec :
    (∀ text : List Char,
        (estimateTokenCount text : Int) = Int.ceil ((text.length : ℚ) / 4))
    ∧ estimateTokenCount [] = 0
    ∧ ∀ s t : List Char, s.length ≤ t.length →
        estimateTokenCount s ≤ estimateTokenCount t := by
  refine ⟨estimateTokenCount_eq_ceil, rfl, ?_⟩
  intro s t hle
  rcases eq_or_ne s [] with rfl | hs
  · simp [estimateTokenCount]
  · have hslen : 0 < s.length := List.length_pos.mpr hs
    have ht : t ≠ [] := by
      intro h
      subst h
      simp only [List.length_nil, Nat.le_zero] at hle
      omega
    simp only [estimateTokenCount, hs, ht, if_false]
    exact Nat.div_le_div_right (by omega)

/-- Witness for C9 at concrete inputs. -/
theorem estimateTokenCount_spec_witness :
    (estimateTokenCount ("ab".toList) : Int)
        = Int.ceil ((("ab".toList).length : ℚ) / 4)
    ∧ estimateTokenCount [] = 0
    ∧ estimateTokenCount ("ab".toList)
        ≤ estimateTokenCount ("abcde".toList) :=
  ⟨estimateTokenCount_spec.1 _, estimateTokenCount_spec.2.1,
    estimateTokenCount_spec.2.2 _ _ (by decide)⟩

/-- The `dotProduct` accumulator of `embeddingService.cosineSimilarity`:
`Σ vec1[i] * vec2[i]` over the common indices. -/
def dotList (vec1 vec2 : List ℝ) : ℝ := (List.zipWith (· * ·) vec1 vec2).sum

/-- The `mag` accumulators of `cosineSimilarity` before the square root:
`Σ v[i] * v[i]`. -/
def sumSq (v : List ℝ) : ℝ := (v.map (fun x => x * x)).sum

open Classical in
/-- `embeddingService.cosineSimilarity(vec1, vec2)`: `0` for mismatched
lengths, otherwise `dot / (√Σvec1ᵢ² * √Σvec2ᵢ²)`, with `0` when either
magnitude is zero (never divide by zero).  JavaScript floats are modelled
as real numbers. -/
noncomputable def cosineSimilarity (vec1 vec2 : List ℝ) : ℝ :=
  if vec1.length ≠ vec2.length then 0
  else
    let dotProduct := dotList vec1 vec2
    let mag1 := Real.sqrt (sumSq vec1)
    let mag2 := Real.sqrt (sumSq vec2)
    if mag1 = 0 ∨ mag2 = 0 then 0 else dotProduct / (mag1 * mag2)

theorem dotList_nil (b : List ℝ) : dotList [] b = 0 := by
  simp [dotList]

theorem dotList_nil_right (a : List ℝ) : dotList a [] = 0 := by
  cases a <;> simp [dotList]

theorem dotList_cons (x y : ℝ) (xs ys : List ℝ) :
    dotList (x :: xs) (y :: ys) = x * y + dotList xs ys := by
  simp [dotList]

theorem sumSq_nil : sumSq ([] : List ℝ) = 0 := by
  simp [sumSq]

theorem sumSq_cons (x : ℝ) (xs : List ℝ) :
    sumSq (x :: xs) = x * x + sumSq xs := by
  simp [sumSq]

theorem dotList_comm (a : List ℝ) : ∀ b : List ℝ, dotList a b = dotList b a := by
  induction a with
  | nil =>
    intro b
    rw [dotList_nil, dotList_nil_right]
  | cons x xs ih =>
    intro b
    cases b with
    | nil => rw [dotList_nil, dotList_nil_right]
    | cons y ys => rw [dotList_cons, dotList_cons, mul_comm, ih]

theorem sumSq_nonneg (v : List ℝ) : 0 ≤ sumSq v := by
  induction v with
  | nil => rw [sumSq_nil]
  | cons x xs ih =>
    rw [sumSq_cons]
    nlinarith [mul_self_nonneg x]

theorem dotList_self (v : List ℝ) : dotList v v = sumSq v := by
  induction v with
  | nil => rw [dotList_nil, sumSq_nil]
  | cons x xs ih => rw [dotList_cons, sumSq_cons, ih]

theorem sumSq_eq_zero_iff (v : List ℝ) :
    sumSq v = 0 ↔ ∀ x ∈ v, x = 0 := by
  induction v with
  | nil => simp [sumSq_nil]
  | cons x xs ih =>
    rw [sumSq_cons,
      add_eq_zero_iff_of_nonneg (mul_self_nonneg x) (sumSq_nonneg xs),
      mul_self_eq_zero, ih]
    constructor
    · rintro ⟨hx, hxs⟩ y hy
      rcases List.mem_cons.mp hy with rfl | hy2
      · exact hx
      · exact hxs y hy2
    · intro h
      exact ⟨h x (List.mem_cons_self x xs),
        fun y hy => h y (List.mem_cons_of_mem x hy)⟩

/-- Cauchy-Schwarz for the list dot product, proved by induction. -/
theorem dotList_sq_le (a : List ℝ) :
    ∀ b : List ℝ, (dotList a b) ^ 2 ≤ sumSq a * sumSq b := by
  induction a with
  | nil =>
    intro b
    rw [dotList_nil, sumSq_nil]
    norm_num
  | cons x xs ih =>
    intro b
    cases b with
    | nil =>
      rw [dotList_nil_right, sumSq_nil]
      norm_num
    | cons y ys =>
      have hA := sumSq_nonneg xs
      have hB := sumSq_nonneg ys
      have ihd := ih ys
      rw [dotList_cons, sumSq_cons, sumSq_cons]
      rcases eq_or_lt_of_le hB with hB0 | hBpos
      · have hd2 : (dotList xs ys) ^ 2 = 0 :=
          le_antisymm (by nlinarith) (sq_nonneg _)
        have hd : dotList xs ys = 0 := sq_eq_zero_iff.mp hd2
        rw [hd, ← hB0]
        nlinarith [mul_self_nonneg y, mul_self_nonneg x,
          mul_nonneg hA (mul_self_nonneg y)]
      · have hsub : (0:ℝ) ≤ sumSq xs * sumSq ys - (dotList xs ys) ^ 2 := by
          nlinarith
        have key : 0 ≤ sumSq ys *
            ((x * x + sumSq xs) * (y * y + sumSq ys)
              - (x * y + dotList xs ys) ^ 2) := by
          nlinarith [sq_nonneg (x * sumSq ys - y * dotList xs ys),
            mul_nonneg hsub (by nlinarith [mul_self_nonneg y] :
              (0:ℝ) ≤ y * y + sumSq ys)]
        nlinarith [key, hBpos]

/-- C6: `cosineSimilarity` is symmetric, always lies in `[-1, 1]`, equals
`1` on any non-zero vector paired with itself, and returns `0` whenever
either vector is all-zero, either argument is empty, or the lengths
differ. -/
theorem cosineSimilarity_spec :
    (∀ a b : List ℝ, cosineSimilarity a b = cosineSimilarity b a)
    ∧ (∀ a b : List ℝ,
        -1 ≤ cosineSimilarity a b ∧ cosineSimilarity a b ≤ 1)
    ∧ (∀ a : List ℝ, (∃ x ∈ a, x ≠ 0) → cosineSimilarity a a = 1)
    ∧ (∀ a b : List ℝ,
        ((∀ x ∈ a, x = 0) ∨ (∀ x ∈ b, x = 0) ∨ a = [] ∨ b = [] ∨
          a.length ≠ b.length) →
        cosineSimilarity a b = 0) := by
  refine ⟨?_, ?_, ?_, ?_⟩
  · intro a b
    simp only [cosineSimilarity]
    by_cases hlen : a.length = b.length
    · rw [if_neg (show ¬a.length ≠ b.length from by simp [hlen]),
        if_neg (show ¬b.length ≠ a.length from by simp [hlen])]
      by_cases hm : Real.sqrt (sumSq a) = 0 ∨ Real.sqrt (sumSq b) = 0
      · rw [if_pos hm, if_pos (Or.symm hm)]
      · rw [if_neg hm,
          if_neg (show ¬(Real.sqrt (sumSq b) = 0 ∨ Real.sqrt (sumSq a) = 0)
            from fun h => hm (Or.symm h)),
          dotList_comm, mul_comm]
    · rw [if_pos hlen, if_pos (Ne.symm hlen)]
  · intro a b
    simp only [cosineSimilarity]
    split_ifs with h1 h2
    · norm_num
    · norm_num
    · push_neg at h2
      obtain ⟨hm1, hm2⟩ := h2
      have hA := sumSq_nonneg a
      have hB := sumSq_nonneg b
      have hm1p : 0 < Real.sqrt (sumSq a) :=
        lt_of_le_of_ne (Real.sqrt_nonneg _) (Ne.symm hm1)
      have hm2p : 0 < Real.sqrt (sumSq b) :=
        lt_of_le_of_ne (Real.sqrt_nonneg _) (Ne.symm hm2)
      have habs : |dotList a b|
          ≤ Real.sqrt (sumSq a) * Real.sqrt (sumSq b) := by
        calc |dotList a b| = Real.sqrt ((dotList a b) ^ 2) :=
              (Real.sqrt_sq_eq_abs _).symm
          _ ≤ Real.sqrt (sumSq a * sumSq b) :=
              Real.sqrt_le_sqrt (dotList_sq_le a b)
          _ = Real.sqrt (sumSq a) * Real.sqrt (sumSq b) :=
              Real.sqrt_mul hA _
      have hdiv : |dotList a b /
          (Real.sqrt (sumSq a) * Real.sqrt (sumSq b))| ≤ 1 := by
        rw [abs_div, abs_of_pos (mul_pos hm1p hm2p),
          div_le_one (mul_pos hm1p hm2p)]
        exact habs
      exact abs_le.mp hdiv
  · rintro a ⟨x, hx, hx0⟩
    have hApos : 0 < sumSq a := by
      rcases lt_or_eq_of_le (sumSq_nonneg a) with h | h
      · exact h
      · exact absurd ((sumSq_eq_zero_iff a).mp h.symm x hx) hx0
    have hs0 : Real.sqrt (sumSq a) ≠ 0 := by
      rw [Ne, Real.sqrt_eq_zero (le_of_lt hApos)]
      exact ne_of_gt hApos
    simp only [cosineSimilarity]
    rw [if_neg (by simp), if_neg (by tauto), dotList_self,
      Real.mul_self_sqrt (le_of_lt hApos), div_self (ne_of_gt hApos)]
  · intro a b hcond
    simp only [cosineSimilarity]
    by_cases hlen : a.length = b.length
    · rw [if_neg (by simp [hlen]), if_pos]
      rcases hcond with h | h | h | h | h
      · exact Or.inl (by rw [(sumSq_eq_zero_iff a).mpr h, Real.sqrt_zero])
      · exact Or.inr (by rw [(sumSq_eq_zero_iff b).mpr h, Real.sqrt_zero])
      · exact Or.inl (by rw [h, sumSq_nil, Real.sqrt_zero])
      · exact Or.inr (by rw [h, sumSq_nil, Real.sqrt_zero])
      · exact absurd hlen h
    · rw [if_pos hlen]

/-- Witness for C6 at concrete vectors. -/
theorem cosineSimilarity_spec_witness :
    cosineSimilarity [(1:ℝ), 2] [3, 4] = cosineSimilarity [3, 4] [(1:ℝ), 2]
    ∧ (-1 ≤ cosineSimilarity [(1:ℝ), 2] [3, 4]
        ∧ cosineSimilarity [(1:ℝ), 2] [3, 4] ≤ 1)
    ∧ cosineSimilarity [(2:ℝ)] [2] = 1
    ∧ cosineSimilarity ([] : List ℝ) [(1:ℝ)] = 0 :=
  ⟨cosineSimilarity_spec.1 _ _, cosineSimilarity_spec.2.1 _ _,
    cosineSimilarity_spec.2.2.1 [2] ⟨2, by simp, by norm_num⟩,
    cosineSimilarity_spec.2.2.2 _ _ (Or.inl (by simp))⟩
/-- Errors thrown by `embeddingService.generateEmbeddings`: the client
guard, the local content-size guard, and rethrown provider failures. -/
inductive GenError where
  | notInitialized
  | contentTooLarge (estimate : Nat)
  | provider (msg : List Char)
deriving DecidableEq, Repr

/-- One element of the `processedItems` array of `generateEmbeddings`. -/
structure EmbedItem where
  originalText : List Char
  processedText : List Char
  tokenEstimate : Nat
deriving DecidableEq, Repr

/-- One element of the `results` array of `generateEmbeddings`. -/
structure EmbedResult where
  text : List Char
  processedText : List Char
  embedding : List ℚ
  tokenEstimate : Nat
deriving DecidableEq, Repr

/-- `embeddingService.maxContentLength`. -/
def maxContentLength : Nat := 8000

/-- The `textArray.map(...)` phase of `generateEmbeddings`: clean each
text, estimate its tokens, and throw `contentTooLarge` at the first item
whose estimate exceeds `maxContentLength` (a JavaScript `.map` aborts at
the first thrown exception). -/
def processItems : List (List Char) → Except GenError (List EmbedItem)
  | [] => .ok []
  | t :: ts =>
    let cleanedText := cleanText t
    let tokenEstimate := estimateTokenCount cleanedText
    if maxContentLength < tokenEstimate then
      .error (.contentTooLarge tokenEstimate)
    else
      match processItems ts with
      | .error e => .error e
      | .ok rest => .ok (⟨t, cleanedText, tokenEstimate⟩ :: rest)

/-- The provider-call loop of `generateEmbeddings`: call
`openaiClient.createEmbedding` on each processed text in order, rethrowing
the first failure. -/
def embedItems (provider : List Char → Except (List Char) (List ℚ)) :
    List EmbedItem → Except GenError (List EmbedResult)
  | [] => .ok []
  | it :: rest =>
    match provider it.processedText with
    | .error msg => .error (.provider msg)
    | .ok embedding =>
      match embedItems provider rest with
      | .error e => .error e
      | .ok rs =>
        .ok (⟨it.originalText, it.processedText, embedding,
          it.tokenEstimate⟩ :: rs)

/-- `embeddingService.generateEmbeddings(content, model)` on an array of
texts (a single string is the singleton list), with the external
`openaiClient.createEmbedding` call abstracted as `provider`: fail fast if
the client is not configured, run the mapping phase (which enforces the
size guard) and only then call the provider on each item. -/
def generateEmbeddings (configured : Bool)
    (provider : List Char → Except (List Char) (List ℚ))
    (content : List (List Char)) : Except GenError (List EmbedResult) :=
  if configured = false then .error .notInitialized
  else
    match processItems content with
    | .error e => .error e
    | .ok items => embedItems provider items

/-- Evaluation of `generateEmbeddings` on a single text: first the size
guard, then the provider call. -/
theorem generateEmbeddings_single (p : List Char → Except (List Char) (List ℚ))
    (t : List Char) :
    generateEmbeddings true p [t] =
      if maxContentLength < estimateTokenCount (cleanText t) then
        .error (.contentTooLarge (estimateTokenCount (cleanText t)))
      else
        match p (cleanText t) with
        | .error msg => .error (.provider msg)
        | .ok emb => .ok [⟨t, cleanText t, emb,
            estimateTokenCount (cleanText t)⟩] := by
  rw [generateEmbeddings, if_neg (by simp)]
  by_cases h : maxContentLength < estimateTokenCount (cleanText t)
  · simp only [processItems, if_pos h]
  · simp only [processItems, if_neg h]
    cases hp : p (cleanText t) with
    | error msg => simp [embedItems, hp]
    | ok emb => simp [embedItems, hp]

/-- C8: on a single text, `generateEmbeddings` raises `contentTooLarge`
exactly when the token estimate of the cleaned text exceeds
`maxContentLength = 8000`, and in that case the result does not depend on
the provider at all (the guard runs before any provider call). -/
theorem generateEmbeddings_size_guard
    (provider : List Char → Except (List Char) (List ℚ)) (t : List Char) :
    ((∃ est, generateEmbeddings true provider [t]
        = .error (.contentTooLarge est))
      ↔ maxContentLength < estimateTokenCount (cleanText t))
    ∧ (maxContentLength < estimateTokenCount (cleanText t) →
        ∀ q : List Char → Except (List Char) (List ℚ),
          generateEmbeddings true provider [t]
            = generateEmbeddings true q [t]) := by
  constructor
  · rw [generateEmbeddings_single provider t]
    by_cases h : maxContentLength < estimateTokenCount (cleanText t)
    · rw [if_pos h]
      exact ⟨fun _ => h, fun _ => ⟨_, rfl⟩⟩
    · rw [if_neg h]
      constructor
      · rintro ⟨est, hest⟩
        cases hp : provider (cleanText t) with
        | error msg =>
          rw [hp] at hest
          simp at hest
        | ok emb =>
          rw [hp] at hest
          simp at hest
      · intro hcon
        exact absurd hcon h
  · intro h q
    rw [generateEmbeddings_single provider t, generateEmbeddings_single q t,
      if_pos h, if_pos h]

/-- `replaceRuns` leaves a list alone when no character matches `p`. -/
theorem replaceRunsAux_of_no_match (p : Char → Bool) (rep : List Char) :
    ∀ (b : Bool) (l : List Char), (∀ c ∈ l, p c = false) →
      replaceRunsAux p rep b l = l := by
  intro b l
  induction l generalizing b with
  | nil => intro _; rfl
  | cons c cs ih =>
    intro h
    have hc : p c = false := h c (List.mem_cons_self c cs)
    rw [replaceRunsAux, if_neg (by simp [hc]),
      ih false (fun d hd => h d (List.mem_cons_of_mem c hd))]

/-- `replaceRuns` leaves a list alone when no character matches `p`. -/
theorem replaceRuns_of_no_match (p : Char → Bool) (rep : List Char)
    (l : List Char) (h : ∀ c ∈ l, p c = false) :
    replaceRuns p rep l = l := by
  rw [replaceRuns]
  exact replaceRunsAux_of_no_match p rep false l h

/-- `cleanText` is the identity on a repetition of one non-whitespace,
non-carriage-return character. -/
theorem cleanText_replicate (c : Char) (n : Nat)
    (hw : jsWhitespace c = false) :
    cleanText (List.replicate n c) = List.replicate n c := by
  have hmem : ∀ d ∈ List.replicate n c, d = c :=
    fun d hd => List.eq_of_mem_replicate hd
  have hws : ∀ d ∈ List.replicate n c, jsWhitespace d = false :=
    fun d hd => (hmem d hd) ▸ hw
  have hnl : c ≠ '\n' := by
    intro hcn
    rw [hcn] at hw
    simp [jsWhitespace] at hw
  have htb : c ≠ '\t' := by
    intro hcn
    rw [hcn] at hw
    simp [jsWhitespace] at hw
  have hcr : c ≠ '\r' := by
    intro hcn
    rw [hcn] at hw
    simp [jsWhitespace] at hw
  cases n with
  | zero => rfl
  | succ m =>
    rw [cleanText, if_neg (by simp)]
    rw [replaceRuns_of_no_match jsWhitespace [' '] _ hws]
    rw [replaceRuns_of_no_match (· == '\n') ['\n'] _
      (fun d hd => by simp [hmem d hd, hnl])]
    rw [replaceRuns_of_no_match (· == '\t') [' '] _
      (fun d hd => by simp [hmem d hd, htb])]
    rw [List.filter_eq_self.mpr
      (fun d hd => by simp [hmem d hd, hcr])]
    have h1 : (List.replicate (m + 1) c).dropWhile jsWhitespace
        = List.replicate (m + 1) c := by
      rw [List.replicate_succ]
      exact List.dropWhile_cons_of_neg (by simp [hw])
    rw [jsTrim, h1, List.reverse_replicate, h1, List.reverse_replicate]

/-- A 32001-character text whose cleaned token estimate is 8001, just over
the 8000-token guard. -/
def oversizeText : List Char := List.replicate 32001 'a'

theorem oversizeText_estimate :
    estimateTokenCount (cleanText oversizeText) = 8001 := by
  have hne : List.replicate 32001 'a' ≠ [] := by
    apply List.ne_nil_of_length_pos
    rw [List.length_replicate]
    norm_num
  rw [oversizeText, cleanText_replicate 'a' 32001 (by decide)]
  rw [estimateTokenCount, if_neg hne, List.length_replicate]

/-- Witness for C8: the 32001-character text trips the guard with any
provider, and the result is provider-independent. -/
theorem generateEmbeddings_size_guard_witness :
    (∃ est, generateEmbeddings true (fun _ => .ok ([] : List ℚ))
        [oversizeText] = .error (.contentTooLarge est))
    ∧ generateEmbeddings true (fun _ => .ok ([] : List ℚ)) [oversizeText]
      = generateEmbeddings true (fun _ => .error ("boom".toList))
          [oversizeText] :=
  ⟨(generateEmbeddings_size_guard (fun _ => .ok ([] : List ℚ))
      oversizeText).1.mpr (by rw [oversizeText_estimate]; decide),
   (generateEmbeddings_size_guard (fun _ => .ok ([] : List ℚ))
      oversizeText).2 (by rw [oversizeText_estimate]; decide) _⟩

/-- A stored row of the `content_chunks` table (see
`supabaseClient.setupSchema` and `vectorRepository.storeContentChunks`).
Dates are modelled as integer timestamps. -/
structure ChunkRow where
  id : Nat
  user_id : String
  content_type : String
  content_id : String
  chunk_text : String
  embedding : List ℚ
  metadata_created_at : Option Int
  created_at : Int
deriving DecidableEq, Repr

/-- A row returned by the `match_content_chunks` SQL function, which
projects `id, content_id, content_type, chunk_text AS content_text,
metadata, similarity` — notably it does not project `created_at`, so the
client-side date filter sees `item.created_at` as undefined (`none`). -/
structure MatchRow where
  id : Nat
  content_id : String
  content_type : String
  content_text : String
  metadata_created_at : Option Int
  created_at : Option Int
  similarity : ℚ
deriving DecidableEq, Repr

/-- The projection applied by the `SELECT` of `match_content_chunks`,
with `similarity = 1 - (embedding <=> query_embedding)`; the pgvector
distance operator is abstracted as `dist`. -/
def projectRow (dist : List ℚ → List ℚ → ℚ) (queryEmbedding : List ℚ)
    (r : ChunkRow) : MatchRow :=
  { id := r.id
    content_id := r.content_id
    content_type := r.content_type
    content_text := r.chunk_text
    metadata_created_at := r.metadata_created_at
    created_at := none
    similarity := 1 - dist r.embedding queryEmbedding }

/-- Insertion step for `ORDER BY similarity DESC`. -/
def insertDescBy (key : MatchRow → ℚ) (x : MatchRow) :
    List MatchRow → List MatchRow
  | [] => [x]
  | y :: ys => if key y < key x then x :: y :: ys else y :: insertDescBy key x ys

/-- `ORDER BY key DESC` as an insertion sort. -/
def sortDescBy (key : MatchRow → ℚ) : List MatchRow → List MatchRow
  | [] => []
  | x :: xs => insertDescBy key x (sortDescBy key xs)

/-- The SQL function `match_content_chunks(query_embedding,
match_threshold, match_count, user_id_input)`: keep the rows of
`content_chunks` with `user_id = user_id_input` and
`1 - (embedding <=> query_embedding) > match_threshold`, project them,
order by similarity descending and take `match_count`. -/
def matchContentChunks (dist : List ℚ → List ℚ → ℚ) (db : List ChunkRow)
    (queryEmbedding : List ℚ) (matchThreshold : ℚ) (matchCount : Nat)
    (userIdInput : String) : List MatchRow :=
  let kept := db.filter (fun r =>
    r.user_id == userIdInput &&
      decide (matchThreshold < 1 - dist r.embedding queryEmbedding))
  let projected := kept.map (projectRow dist queryEmbedding)
  (sortDescBy (fun m => m.similarity) projected).take matchCount

/-- `vectorRepository.defaultSimilarityThreshold`. -/
def defaultSimilarityThreshold : ℚ := 0.75

/-- `vectorRepository.defaultMatchCount`. -/
def defaultMatchCount : Nat := 5

/-- The options bag of `findSimilarChunks`, with the destructuring
defaults of the source. -/
structure SearchOptions where
  threshold : ℚ := defaultSimilarityThreshold
  matchCount : Nat := defaultMatchCount
  contentTypes : List String := []
  contentIds : List String := []
  startDate : Option Int := none
  endDate : Option Int := none
deriving DecidableEq, Repr

/-- Errors of the vector repository. -/
inductive RepoError where
  | notInitialized
deriving DecidableEq, Repr

/-- The `item.metadata?.created_at || item.created_at` lookup of the
client-side date filters (`new Date(undefined)` is an invalid date whose
comparisons are all false, modelled by `none`). -/
def itemDate (m : MatchRow) : Option Int :=
  match m.metadata_created_at with
  | some d => some d
  | none => m.created_at

/-- `if (contentTypes.length > 0) filtered = filtered.filter(...)`. -/
def applyContentTypeFilter (contentTypes : List String)
    (l : List MatchRow) : List MatchRow :=
  if contentTypes ≠ [] then
    l.filter (fun m => contentTypes.contains m.content_type)
  else l

/-- `if (contentIds.length > 0) filtered = filtered.filter(...)`. -/
def applyContentIdFilter (contentIds : List String)
    (l : List MatchRow) : List MatchRow :=
  if contentIds ≠ [] then
    l.filter (fun m => contentIds.contains m.content_id)
  else l

/-- `if (startDate) filtered = filtered.filter(itemDate >= startDateObj)`. -/
def applyStartDateFilter : Option Int → List MatchRow → List MatchRow
  | some d, l => l.filter (fun m =>
      match itemDate m with
      | some t => decide (d ≤ t)
      | none => false)
  | none, l => l

/-- `if (endDate) filtered = filtered.filter(itemDate <= endDateObj)`. -/
def applyEndDateFilter : Option Int → List MatchRow → List MatchRow
  | some d, l => l.filter (fun m =>
      match itemDate m with
      | some t => decide (t ≤ d)
      | none => false)
  | none, l => l

/-- The client-side post-filtering of `findSimilarChunks`, in source
order: content types, content ids, start date, end date. -/
def clientFilters (options : SearchOptions) (data : List MatchRow) :
    List MatchRow :=
  applyEndDateFilter options.endDate
    (applyStartDateFilter options.startDate
      (applyContentIdFilter options.contentIds
        (applyContentTypeFilter options.contentTypes data)))

/-- `vectorRepository.findSimilarChunks(queryEmbedding, userId, options)`:
fail fast when Supabase is not configured, call the
`match_content_chunks` RPC, then apply the client-side filters. -/
def findSimilarChunks (configured : Bool) (dist : List ℚ → List ℚ → ℚ)
    (db : List ChunkRow) (queryEmbedding : List ℚ) (userId : String)
    (options : SearchOptions) : Except RepoError (List MatchRow) :=
  if configured = false then .error .notInitialized
  else
    .ok (clientFilters options
      (matchContentChunks dist db queryEmbedding
        options.threshold options.matchCount userId))

theorem mem_insertDescBy (key : MatchRow → ℚ) (x a : MatchRow) :
    ∀ l : List MatchRow, a ∈ insertDescBy key x l → a = x ∨ a ∈ l := by
  intro l
  induction l with
  | nil =>
    intro h
    simpa [insertDescBy] using h
  | cons y ys ih =>
    intro h
    rw [insertDescBy] at h
    split_ifs at h with hk
    · rcases List.mem_cons.mp h with rfl | h2
      · exact Or.inl rfl
      · exact Or.inr h2
    · rcases List.mem_cons.mp h with rfl | h2
      · exact Or.inr (List.mem_cons_self a ys)
      · rcases ih h2 with h3 | h3
        · exact Or.inl h3
        · exact Or.inr (List.mem_cons_of_mem y h3)

theorem mem_sortDescBy (key : MatchRow → ℚ) (a : MatchRow) :
    ∀ l : List MatchRow, a ∈ sortDescBy key l → a ∈ l := by
  intro l
  induction l with
  | nil =>
    intro h
    simpa [sortDescBy] using h
  | cons x xs ih =>
    intro h
    rw [sortDescBy] at h
    rcases mem_insertDescBy key x a _ h with rfl | h2
    · exact List.mem_cons_self a xs
    · exact List.mem_cons_of_mem x (ih h2)

/-- Every row returned by the SQL function is the projection of a stored
row owned by the requesting user. -/
theorem mem_matchContentChunks (dist : List ℚ → List ℚ → ℚ)
    (db : List ChunkRow) (q : List ℚ) (th : ℚ) (cnt : Nat) (userId : String)
    (m : MatchRow) (hm : m ∈ matchContentChunks dist db q th cnt userId) :
    ∃ r ∈ db, r.user_id = userId ∧ m = projectRow dist q r := by
  rw [matchContentChunks] at hm
  have h1 := List.take_subset _ _ hm
  have h2 := mem_sortDescBy _ _ _ h1
  obtain ⟨r, hr, hproj⟩ := List.mem_map.mp h2
  have hkeep := List.mem_filter.mp hr
  refine ⟨r, hkeep.1, ?_, hproj.symm⟩
  have := hkeep.2
  simp only [Bool.and_eq_true, beq_iff_eq, decide_eq_true_eq] at this
  exact this.1

theorem applyContentTypeFilter_subset (cts : List String)
    (l : List MatchRow) : applyContentTypeFilter cts l ⊆ l := by
  rw [applyContentTypeFilter]
  split_ifs
  · exact (List.filter_sublist _).subset
  · exact fun x hx => hx

theorem applyContentIdFilter_subset (cis : List String)
    (l : List MatchRow) : applyContentIdFilter cis l ⊆ l := by
  rw [applyContentIdFilter]
  split_ifs
  · exact (List.filter_sublist _).subset
  · exact fun x hx => hx

theorem applyStartDateFilter_subset (o : Option Int)
    (l : List MatchRow) : applyStartDateFilter o l ⊆ l := by
  cases o with
  | none => exact fun x hx => hx
  | some d => exact (List.filter_sublist _).subset

theorem applyEndDateFilter_subset (o : Option Int)
    (l : List MatchRow) : applyEndDateFilter o l ⊆ l := by
  cases o with
  | none => exact fun x hx => hx
  | some d => exact (List.filter_sublist _).subset

/-- The client-side filters can only remove rows. -/
theorem clientFilters_subset (options : SearchOptions)
    (data : List MatchRow) : clientFilters options data ⊆ data :=
  fun x hx =>
    applyContentTypeFilter_subset _ _
      (applyContentIdFilter_subset _ _
        (applyStartDateFilter_subset _ _
          (applyEndDateFilter_subset _ _ hx)))

/-- C3: similarity search scoped to a user returns only rows stored for
that user: whatever the distance function, the stored rows, the query,
and the options, every returned row is the projection of a database row
whose `user_id` equals the requested owner — the SQL `WHERE user_id =
user_id_input` filter guarantees the tenancy invariant, and the
client-side filters only remove rows. -/
theorem findSimilarChunks_tenant_isolation (dist : List ℚ → List ℚ → ℚ)
    (db : List ChunkRow) (q : List ℚ) (userId : String)
    (opts : SearchOptions) (res : List MatchRow)
    (hres : findSimilarChunks true dist db q userId opts = .ok res)
    (m : MatchRow) (hm : m ∈ res) :
    ∃ r ∈ db, r.user_id = userId ∧ m = projectRow dist q r := by
  rw [findSimilarChunks, if_neg (by simp)] at hres
  have hok := Except.ok.inj hres
  subst hok
  exact mem_matchContentChunks dist db q opts.threshold opts.matchCount
    userId m (clientFilters_subset _ _ hm)

/-- A degenerate distance function: every pair of vectors at distance 0
(so similarity 1), making rows of both owners perfect matches. -/
def zeroDist : List ℚ → List ℚ → ℚ := fun _ _ => 0

/-- A chunk stored for owner A. -/
def rowOwnerA : ChunkRow :=
  ⟨1, "A", "youtube_video", "c1", "same text", [1], none, 0⟩

/-- A chunk stored for owner B with identical text and embedding. -/
def rowOwnerB : ChunkRow :=
  ⟨2, "B", "youtube_video", "c1", "same text", [1], none, 0⟩

/-- Evaluation of the SQL function on the two-owner store: only owner A's
row passes the `user_id` filter. -/
theorem matchContentChunks_witness_eval :
    matchContentChunks zeroDist [rowOwnerA, rowOwnerB] [1]
      defaultSimilarityThreshold defaultMatchCount "A"
      = [projectRow zeroDist [1] rowOwnerA] := by
  have hA : (rowOwnerA.user_id == "A" &&
      decide (defaultSimilarityThreshold <
        1 - zeroDist rowOwnerA.embedding [1])) = true := by
    simp only [rowOwnerA, zeroDist, defaultSimilarityThreshold]
    norm_num
  have hB : (rowOwnerB.user_id == "A" &&
      decide (defaultSimilarityThreshold <
        1 - zeroDist rowOwnerB.embedding [1])) = false := by
    simp [rowOwnerB]
  rw [matchContentChunks]
  simp only [List.filter, hA, hB, List.map, sortDescBy, insertDescBy,
    defaultMatchCount, List.take]

/-- With default options the client-side filters keep everything. -/
theorem clientFilters_witness_eval :
    clientFilters {} [projectRow zeroDist [1] rowOwnerA]
      = [projectRow zeroDist [1] rowOwnerA] := by
  simp [clientFilters, applyContentTypeFilter, applyContentIdFilter,
    applyStartDateFilter, applyEndDateFilter]

/-- Witness for C3: with owners A and B holding identical chunks and every
similarity maximal, a search scoped to A returns only a projection of a
row owned by A. -/
theorem findSimilarChunks_tenant_isolation_witness :
    ∃ r ∈ [rowOwnerA, rowOwnerB], r.user_id = "A"
      ∧ projectRow zeroDist [1] rowOwnerA = projectRow zeroDist [1] r :=
  findSimilarChunks_tenant_isolation zeroDist [rowOwnerA, rowOwnerB] [1]
    "A" {} [projectRow zeroDist [1] rowOwnerA]
    (by
      rw [findSimilarChunks, if_neg (by simp)]
      have hth : ({} : SearchOptions).threshold
          = defaultSimilarityThreshold := rfl
      have hmc : ({} : SearchOptions).matchCount = defaultMatchCount := rfl
      rw [hth, hmc, matchContentChunks_witness_eval,
        clientFilters_witness_eval])
    (projectRow zeroDist [1] rowOwnerA) (List.mem_singleton.mpr rfl)

/-- `responseGenerator.contextFormat`. -/
def contextFormat : List Char :=
  "\n----- CONTEXT START -----\n{context}\n----- CONTEXT END -----\n".toList

/-- The part of `contextFormat` before the `{context}` placeholder. -/
def contextOpen : List Char := "\n----- CONTEXT START -----\n".toList

/-- The part of `contextFormat` after the `{context}` placeholder. -/
def contextClose : List Char := "\n----- CONTEXT END -----\n".toList

/-- Scanner for JavaScript `.replace(pat, rep)` with a plain-string
pattern: replace the first occurrence only.  `fuel` makes the recursion
structural, as in `removeAllAux`. -/
def replaceFirstAux (pat rep : List Char) : Nat → List Char → List Char
  | _, [] => []
  | 0, l => l
  | fuel + 1, c :: cs =>
    if pat.isPrefixOf (c :: cs) then rep ++ (c :: cs).drop pat.length
    else c :: replaceFirstAux pat rep fuel cs

/-- JavaScript `l.replace(pat, rep)` for a plain-string pattern. -/
def replaceFirst (pat rep l : List Char) : List Char :=
  replaceFirstAux pat rep l.length l

/-- `contextTexts.join('\n\n---\n\n')` of `generateResponse`. -/
def combinedContext (contextTexts : List (List Char)) : List Char :=
  (contextTexts.intersperse ("\n\n---\n\n".toList)).flatten

/-- The `contextSection` computed by `generateResponse`: empty when there
are no context texts, otherwise `contextFormat` with `{context}` replaced
by the joined texts. -/
def contextSection (contextTexts : List (List Char)) : List Char :=
  if contextTexts = [] then []
  else replaceFirst ("{context}".toList) (combinedContext contextTexts)
    contextFormat

/-- Replacing the placeholder in the concrete `contextFormat` splices the
replacement between the two delimiter lines. -/
theorem replaceFirst_contextFormat (rep : List Char) :
    replaceFirst ("{context}".toList) rep contextFormat
      = contextOpen ++ rep ++ contextClose := rfl

/-- C4: the claim states that context assembly enforces a 4000-token
budget (dropping and truncating chunks once it is exceeded).
`generateResponse` has no budget at all: it joins every retrieved text
into `contextSection` unconditionally, so a single 20000-character
retrieved text yields an assembled context whose token estimate is 5013,
far above 4000.  The repository design document specifies a maximum
context window of 4000 tokens with a truncation strategy, so the missing
budget is a bug in the code. -/
theorem contextAssembly_exceeds_budget :
    4000 < estimateTokenCount
      (contextSection [List.replicate 20000 'a']) := by
  have hopen : contextOpen.length = 27 := by decide
  have hclose : contextClose.length = 25 := by decide
  have h2 : combinedContext [List.replicate 20000 'a']
      = List.replicate 20000 'a' := by
    rw [combinedContext, List.intersperse_singleton, List.flatten_cons,
      List.flatten_nil, List.append_nil]
  have h1 : contextSection [List.replicate 20000 'a']
      = contextOpen ++ List.replicate 20000 'a' ++ contextClose := by
    rw [contextSection, if_neg (List.cons_ne_nil _ _), h2,
      replaceFirst_contextFormat]
  have hlen : (contextOpen ++ List.replicate 20000 'a'
      ++ contextClose).length = 20052 := by
    rw [List.length_append, List.length_append, List.length_replicate,
      hopen, hclose]
  have hne : contextOpen ++ List.replicate 20000 'a' ++ contextClose
      ≠ [] := by
    apply List.ne_nil_of_length_pos
    rw [hlen]
    norm_num
  rw [h1, estimateTokenCount, if_neg hne, hlen]
  norm_num

/-- The avatar configuration object consumed by
`responseGenerator.buildSystemPrompt` and `generateResponse`; absent
fields are `none`, and JavaScript string truthiness also treats a present
empty string as falsy. -/
structure AvatarConfig where
  name : Option (List Char) := none
  description : Option (List Char) := none
  tone : Option (List Char) := none
  writingStyle : Option (List Char) := none
  knowledgeLevel : Option (List Char) := none
  personality : Option (List Char) := none
  customInstructions : Option (List Char) := none
  model : Option (List Char) := none
  temperature : Option ℚ := none
  maxTokens : Option Nat := none
deriving DecidableEq, Repr

/-- JavaScript truthiness of an optional string (`undefined` and `''` are
falsy). -/
def jsTruthyStr : Option (List Char) → Bool
  | none => false
  | some s => !s.isEmpty

/-- JavaScript `value || default` for an optional string. -/
def orDefaultStr (o : Option (List Char)) (d : List Char) : List Char :=
  match o with
  | some s => if s.isEmpty then d else s
  | none => d

/-- JavaScript `value || default` for an optional number (`0` is falsy). -/
def jsOrNum (o : Option ℚ) (d : ℚ) : ℚ :=
  match o with
  | some x => if x == 0 then d else x
  | none => d

/-- JavaScript `value || default` for an optional natural number. -/
def jsOrNat (o : Option Nat) (d : Nat) : Nat :=
  match o with
  | some n => if n == 0 then d else n
  | none => d

/-- `String.prototype.toLowerCase()` on ASCII letters. -/
def toLowerAscii (s : List Char) : List Char :=
  s.map (fun c => if isUpperAZ c then Char.ofNat (c.toNat + 32) else c)

/-- `Object.keys(avatarConfig).length === 0`: no field present. -/
def AvatarConfig.isEmptyObj (cfg : AvatarConfig) : Bool :=
  cfg.name.isNone && cfg.description.isNone && cfg.tone.isNone &&
  cfg.writingStyle.isNone && cfg.knowledgeLevel.isNone &&
  cfg.personality.isNone && cfg.customInstructions.isNone &&
  cfg.model.isNone && cfg.temperature.isNone && cfg.maxTokens.isNone

/-- `responseGenerator.defaultSystemPrompt`. -/
def defaultSystemPrompt : List Char :=
  ("You are an AI assistant that provides helpful, accurate, and concise responses. \nUse the provided context to answer the user\x27s question. \nIf the context doesn\x27t contain relevant information, say that you don\x27t have enough information and suggest what might help.\nDon\x27t make up information that isn\x27t supported by the context.\nAlways maintain a friendly, helpful tone.").toList

/-- The context-handling instructions appended near the end of
`buildSystemPrompt`. -/
def contextInstructions : List Char :=
  ("Use the provided context to answer the user\x27s question. \nIf the context doesn\x27t contain relevant information, say that you don\x27t have enough information and suggest what might help.\nDon\x27t make up information that isn\x27t supported by the context.\n\n").toList

/-- `responseGenerator.buildSystemPrompt(avatarConfig)`. -/
def buildSystemPrompt (cfg : AvatarConfig) : List Char :=
  if cfg.isEmptyObj then defaultSystemPrompt
  else
    let p0 := "You are ".toList
      ++ orDefaultStr cfg.name ("an AI assistant".toList)
    let p1 := if jsTruthyStr cfg.description then
        p0 ++ ", ".toList ++ cfg.description.getD []
      else p0
    let p2 := p1 ++ ".\n\n".toList
    let p3 := if jsTruthyStr cfg.tone then
        p2 ++ "Maintain a ".toList ++ cfg.tone.getD []
          ++ " tone in your responses. ".toList
      else p2
    let p4 := if jsTruthyStr cfg.writingStyle then
        p3 ++ "Write in a ".toList ++ cfg.writingStyle.getD []
          ++ " style. ".toList
      else p3
    let p5 := p4 ++ "\n\n".toList
    let p6 := if jsTruthyStr cfg.knowledgeLevel then
        let kl := cfg.knowledgeLevel.getD []
        let q0 := p5 ++ "Your expertise level is ".toList ++ kl
          ++ ". ".toList
        let q1 := if toLowerAscii kl = "expert".toList then
            q0 ++ "Use domain-specific terminology where appropriate. ".toList
          else if toLowerAscii kl = "beginner".toList then
            q0 ++ "Explain concepts in simple terms. ".toList
          else q0
        q1 ++ "\n\n".toList
      else p5
    let p7 := if jsTruthyStr cfg.personality then
        p6 ++ "Your personality traits include: ".toList
          ++ cfg.personality.getD []
          ++ ". Reflect these traits in your responses.\n\n".toList
      else p6
    let p8 := p7 ++ contextInstructions
    if jsTruthyStr cfg.customInstructions then
      p8 ++ cfg.customInstructions.getD [] ++ "\n\n".toList
    else p8

/-- One entry of the `messages` array sent to the chat completion. -/
structure ChatMessage where
  role : List Char
  content : List Char
deriving DecidableEq, Repr

/-- The one error `generateResponse` can actually throw to its caller. -/
inductive RespError where
  | notInitialized
deriving DecidableEq, Repr

/-- The fixed apology string returned by the `catch` block of
`generateResponse`. -/
def fallbackResponse : List Char :=
  ("Sorry, I encountered an error while generating a response. Please try again later.").toList

/-- `responseGenerator.generateResponse(query, contextTexts,
avatarConfig)`, with the external
`openaiClient.createChatCompletion(messages, model, options)` call
abstracted as `provider` (taking the messages, model, temperature and
max-token count): fail fast when the client is not configured, build the
context section and the personalized system prompt, call the provider
once, and — in the `catch` block — turn any provider failure into the
fixed apology string returned as a normal success. -/
def generateResponse (configured : Bool)
    (provider : List ChatMessage → List Char → ℚ → Nat →
      Except (List Char) (List Char))
    (query : List Char) (contextTexts : List (List Char))
    (avatarConfig : AvatarConfig) : Except RespError (List Char) :=
  if configured = false then .error .notInitialized
  else
    match provider
        [⟨"system".toList,
          buildSystemPrompt avatarConfig ++ contextSection contextTexts⟩,
         ⟨"user".toList, query⟩]
        (orDefaultStr avatarConfig.model ("gpt-4-turbo".toList))
        (jsOrNum avatarConfig.temperature 0.7)
        (jsOrNat avatarConfig.maxTokens 1000) with
    | .ok response => .ok response
    | .error _ => .ok fallbackResponse

/-- A provider whose every call fails (e.g. rate-limited). -/
def failingProvider : List ChatMessage → List Char → ℚ → Nat →
    Except (List Char) (List Char) :=
  fun _ _ _ _ => .error ("rate limited".toList)

/-- An avatar configuration with no field present. -/
def emptyAvatarConfig : AvatarConfig := {}

/-- Counterexample to C5: with a provider that always fails,
`generateResponse` does not propagate any error — it resolves
successfully with the fixed apology string, so the caller cannot observe
the provider failure. -/
theorem generateResponse_swallows_provider_failure :
    generateResponse true failingProvider ("Hi".toList) []
        emptyAvatarConfig = .ok fallbackResponse
    ∧ generateResponse true failingProvider ("Hi".toList) []
        emptyAvatarConfig ≠ .error .notInitialized := by
  have heval : generateResponse true failingProvider ("Hi".toList) []
      emptyAvatarConfig = .ok fallbackResponse := rfl
  refine ⟨heval, ?_⟩
  rw [heval]
  intro hcontra
  exact Except.noConfusion hcontra

/-- C5 (amended): when the LLM provider call fails, `generateResponse`
catches the failure in its `catch` block and returns the fixed apology
string as a successful result — it does not retry (the provider is
consulted once in its body) but it also does not propagate the failure,
so the caller sees a fabricated success instead of an error. -/
theorem generateResponse_catches_provider_failure
    (provider : List ChatMessage → List Char → ℚ → Nat →
      Except (List Char) (List Char))
    (query : List Char) (contextTexts : List (List Char))
    (cfg : AvatarConfig)
    (hfail : ∀ msgs mdl temp mx, ∃ e,
      provider msgs mdl temp mx = .error e) :
    generateResponse true provider query contextTexts cfg
      = .ok fallbackResponse := by
  rw [generateResponse, if_neg (by simp)]
  obtain ⟨e, he⟩ := hfail
    [⟨"system".toList,
      buildSystemPrompt cfg ++ contextSection contextTexts⟩,
     ⟨"user".toList, query⟩]
    (orDefaultStr cfg.model ("gpt-4-turbo".toList))
    (jsOrNum cfg.temperature 0.7)
    (jsOrNat cfg.maxTokens 1000)
  rw [he]

/-- Witness for the amended C5 at a concrete failing provider. -/
theorem generateResponse_catches_provider_failure_witness :
    generateResponse true failingProvider ("Hello".toList) []
        emptyAvatarConfig = .ok fallbackResponse :=
  generateResponse_catches_provider_failure failingProvider
    ("Hello".toList) [] emptyAvatarConfig (fun _ _ _ _ => ⟨_, rfl⟩)

/-- C10: `cleanTranscript` strips a line-initial capitalized word even
when it is ordinary prose and carries no colon: the speaker-name pattern
`^[A-Z][a-z]+:?\s*` matches `"Hello "` at the start of `"Hello there."`,
so the output is `"there."`. -/
theorem cleanTranscript_strips_capitalized_first_word :
    cleanTranscript ("Hello there.".toList) = "there.".toList := by
  decide

end AvatarApp
